import Mathlib

/-!
Verification development for the pet-diary Telegram bot (`bot.py`).

The program is shallowly embedded: the database session (SQLAlchemy, async)
becomes an explicit `Store` value threaded through the handlers, the per-user
`context.user_data` dictionary becomes a `UserData` record (only the keys
`"state"` and `"pet_id"` are ever used by the program), wall-clock UTC
timestamps become an abstract second counter `Nat` supplied by the caller,
and Python `float` values become `PyFloat` (exact decimal semantics for the
finite case; `inf`/`nan` kept symbolic).  `strftime` rendering of a timestamp
is abstracted to its decimal image (`fmtTs`), and `repr` of a float to
`fmtVal`; the claims under study never inspect the concrete date format.
Fallible operations return `Option`/`Except`: a `none` from a top-level
handler models an uncaught exception (the unique-constraint violation that
`session.commit()` raises when inserting a duplicate pet name).
-/

namespace PetBot

/-- Python whitespace characters recognised by `str.strip()` (ASCII range). -/
def isPySpace (c : Char) : Bool :=
  c == ' ' || c == '\t' || c == '\n' || c == '\r' || c == '\x0b' || c == '\x0c'

/-- `str.strip()` on a character list: drop leading and trailing whitespace. -/
def pyStripList (l : List Char) : List Char :=
  ((l.dropWhile isPySpace).reverse.dropWhile isPySpace).reverse

/-- Python `str.strip()` (default arguments). -/
def pyStrip (s : String) : String := ⟨pyStripList s.data⟩

/-- `pre` is a prefix of the character list. -/
def listStartsWith : List Char → List Char → Bool
  | [], _ => true
  | _ :: _, [] => false
  | p :: ps, c :: cs => p == c && listStartsWith ps cs

/-- Python `s.startswith(pre)`. -/
def pyStartsWith (s pre : String) : Bool := listStartsWith pre.data s.data

/-- Python `s.replace(",", ".")` — with one-character pattern and
replacement this is exactly a character map. -/
def pyReplaceCommaDot (s : String) : String :=
  ⟨s.data.map (fun c => if c == ',' then '.' else c)⟩

/-- Python `s.lower()` (ASCII range, which is all the program compares). -/
def pyLower (s : String) : String := ⟨s.data.map Char.toLower⟩

/-- A Python `float` value as produced by `float(text)`: a finite value kept
with exact decimal semantics as an explicit fraction `num / den` (`den` a
power of ten, no reduction — parsing the same text always yields the same
pair), a signed infinity, or a NaN. -/
inductive PyFloat where
  | finite (num : Int) (den : Nat)
  | inf (neg : Bool)
  | nan
deriving DecidableEq, Repr

/-- Denotation of a finite Python float as an exact rational. -/
def PyFloat.val : PyFloat → Option ℚ
  | .finite num den => some ((num : ℚ) / (den : ℚ))
  | _ => none

/-- Numeric value of a decimal digit character. -/
def digitVal (c : Char) : Nat := c.toNat - 48

/-- Consume a run of decimal digits, allowing single underscores between two
digits (Python numeric-literal rule); returns the accumulated value, the
number of digits consumed, and the remaining characters. -/
def parseDigitsAux : List Char → Nat → Nat → Nat × Nat × List Char
  | [], acc, n => (acc, n, [])
  | [c], acc, n =>
    if c.isDigit then (acc * 10 + digitVal c, n + 1, [])
    else (acc, n, [c])
  | c :: d :: rest, acc, n =>
    if c.isDigit then parseDigitsAux (d :: rest) (acc * 10 + digitVal c) (n + 1)
    else if c == '_' then
      if d.isDigit then parseDigitsAux rest (acc * 10 + digitVal d) (n + 1)
      else (acc, n, c :: d :: rest)
    else (acc, n, c :: d :: rest)

/-- Digit-run parser: requires the first character to be a digit. -/
def parseDigits (l : List Char) : Option (Nat × Nat × List Char) :=
  match l with
  | c :: _ => if c.isDigit then some (parseDigitsAux l 0 0) else none
  | [] => none

/-- Optional leading sign; returns `true` for a minus sign. -/
def parseSignChars : List Char → Bool × List Char
  | '+' :: rest => (false, rest)
  | '-' :: rest => (true, rest)
  | l => (false, l)

/-- Mantissa of a float literal: `digits [. digits?] | . digits`.  Returns the
joined digit value, the number of fractional digits, and the rest. -/
def parseMantissa (l : List Char) : Option (Nat × Nat × List Char) :=
  match parseDigits l with
  | some (a, _, rest) =>
    match rest with
    | '.' :: rest2 =>
      match parseDigits rest2 with
      | some (b, nb, rest3) => some (a * 10 ^ nb + b, nb, rest3)
      | none => some (a, 0, rest2)
    | _ => some (a, 0, rest)
  | none =>
    match l with
    | '.' :: rest2 =>
      match parseDigits rest2 with
      | some (b, nb, rest3) => some (b, nb, rest3)
      | none => none
    | _ => none

/-- Optional exponent part `(e|E) sign? digits`. -/
def parseExp (l : List Char) : Option (Int × List Char) :=
  match l with
  | c :: rest =>
    if c == 'e' || c == 'E' then
      let (neg, rest2) := parseSignChars rest
      match parseDigits rest2 with
      | some (e, _, rest3) => some (if neg then -(e : Int) else (e : Int), rest3)
      | none => none
    else some (0, l)
  | [] => some (0, [])

/-- Python `float(s)`: strips surrounding whitespace, an optional sign, then
either `inf`/`infinity`/`nan` (case-insensitive) or a decimal literal with
optional fraction and exponent.  `none` models the `ValueError` raised on
anything else. -/
def pyFloatParse (s : String) : Option PyFloat :=
  let l := pyStripList s.data
  let (neg, l1) := parseSignChars l
  let low := l1.map Char.toLower
  if low == "inf".data || low == "infinity".data then some (.inf neg)
  else if low == "nan".data then some .nan
  else
    match parseMantissa l1 with
    | some (m, nb, rest) =>
      match parseExp rest with
      | some (e, rest2) =>
        if rest2.isEmpty then
          let sign : Int := if neg then -1 else 1
          some (if (nb : Int) ≤ e then
                  .finite (sign * (m : Int) * 10 ^ (e - (nb : Int)).toNat) 1
                else .finite (sign * (m : Int)) (10 ^ ((nb : Int) - e).toNat))
        else none
      | none => none
    | none => none

/-- Python `int(s)`: whitespace-stripped, optional sign, digit run (with
underscores between digits), nothing left over. -/
def pyIntParse (s : String) : Option Int :=
  let l := pyStripList s.data
  let (neg, l1) := parseSignChars l
  match parseDigits l1 with
  | some (v, _, []) => some (if neg then -(v : Int) else (v : Int))
  | _ => none

/-- Rendering of a timestamp (`strftime('%Y-%m-%d %H:%M:%S')` abstracted to
the decimal image of the second counter; the claims never inspect the
concrete calendar format, only second-granularity identity and order). -/
def fmtTs (t : Nat) : String := toString t

/-- Rendering of a float value (Python `repr` of the float, abstracted to the
canonical rendering of the exact value). -/
def fmtVal : PyFloat → String
  | .finite num den => toString num ++ "/" ++ toString den
  | .inf neg => if neg then "-inf" else "inf"
  | .nan => "nan"

-- --------------------
-- Store model (the four ORM tables, grouped per pet as the relationships do)
-- --------------------

/-- A `pets` row together with its four entry collections (each entry is a
`(timestamp, payload)` pair; the surrogate entry ids play no role in the
program's behaviour and are omitted). -/
structure Pet where
  id : Nat
  name : String
  created_at : Nat
  weights : List (Nat × PyFloat)
  treatments : List (Nat × String)
  vaccines : List (Nat × String)
  events : List (Nat × String)
deriving DecidableEq, Repr

/-- The database state: all pets plus the autoincrement counter for `pets.id`
(SQLite/PostgreSQL identity columns start at 1). -/
structure Store where
  pets : List Pet
  nextId : Nat
deriving DecidableEq, Repr

/-- `ensure_pet(session, name)`: look up by the exact (untrimmed) `name`; if
found return it unchanged, else insert `Pet(name=name.strip())` and commit.
The `unique=True` constraint on `pets.name` makes the commit raise when a pet
with the trimmed name already exists: that is the `.error` case. -/
def ensure_pet (s : Store) (now : Nat) (name : String) : Except Unit (Pet × Store) :=
  match s.pets.find? (fun p => p.name == name) with
  | some p => .ok (p, s)
  | none =>
    let newName := pyStrip name
    if s.pets.any (fun p => p.name == newName) then .error ()
    else
      let p : Pet := ⟨s.nextId, newName, now, [], [], [], []⟩
      .ok (p, ⟨s.pets ++ [p], s.nextId + 1⟩)

/-- `session.get(Pet, pet_id)`: lookup by primary key, `none` when absent
(returned, never raised). -/
def get_pet (s : Store) (pid : Int) : Option Pet :=
  s.pets.find? (fun p => (p.id : Int) == pid)

/-- Rewrite the pet with the given id through `f` (an entry insert keyed by
`pet_id` followed by commit). -/
def updatePet (s : Store) (pid : Int) (f : Pet → Pet) : Store :=
  ⟨s.pets.map (fun p => if (p.id : Int) == pid then f p else p), s.nextId⟩

/-- The `order_by=timestamp` clause on each relationship: entries are sorted
by timestamp when a pet's collections are loaded. -/
def sortByTs {α : Type} (l : List (Nat × α)) : List (Nat × α) :=
  l.insertionSort (fun a b => a.1 ≤ b.1)

/-- `fetch_pets`: `select(Pet).order_by(Pet.name)`. -/
def fetch_pets (s : Store) : List Pet :=
  s.pets.insertionSort (fun a b => a.name ≤ b.name)

-- --------------------
-- Rendering
-- --------------------

/-- `format_entries(entries, title, formatter)`: either the `пока пусто`
("pending") placeholder, or one `<timestamp>: <formatted value>` line per
entry. -/
def format_entries {α : Type} (entries : List (Nat × α)) (title : String)
    (formatter : α → String) : String :=
  if entries.isEmpty then title ++ ": пока пусто"
  else title ++ ":\n" ++
    String.intercalate "\n" (entries.map fun e => fmtTs e.1 ++ ": " ++ formatter e.2)

/-- Weight section: `format_entries(pet.weights, "Вес", lambda e: f"{e.value} кг")`
on the timestamp-ordered relationship. -/
def weightSection (pet : Pet) : String :=
  format_entries (sortByTs pet.weights) "Вес" (fun v => fmtVal v ++ " кг")

/-- Treatments section. -/
def treatSection (pet : Pet) : String :=
  format_entries (sortByTs pet.treatments) "Обработки" (fun d => d)

/-- Vaccines section. -/
def vaccineSection (pet : Pet) : String :=
  format_entries (sortByTs pet.vaccines) "Вакцины" (fun d => d)

/-- Events section. -/
def eventSection (pet : Pet) : String :=
  format_entries (sortByTs pet.events) "События" (fun d => d)

/-- The pet summary built in the `INFO` branch of `handle_callback`: header
line plus the four sections, joined with blank lines. -/
def render_pet_summary (pet : Pet) : String :=
  String.intercalate "\n\n"
    ["Питомец: " ++ pet.name, weightSection pet, treatSection pet,
     vaccineSection pet, eventSection pet]

-- --------------------
-- Conversation state and the two handlers
-- --------------------

/-- The `context.user_data` dictionary: the program only ever writes the keys
`"state"` (a string) and `"pet_id"` (an int); `clear()` removes both. -/
structure UserData where
  state : Option String
  pet_id : Option Int
deriving DecidableEq, Repr

/-- `user_data` after `clear()`. -/
def UserData.empty : UserData := ⟨none, none⟩

def MAIN_MENU : String := "MAIN_MENU"
def ADD_PET : String := "ADD_PET"
def LIST_PETS : String := "LIST_PETS"
def PET_INFO : String := "PET_INFO"
def ADD_WEIGHT : String := "ADD_WEIGHT"
def ADD_CARE : String := "ADD_CARE"
def ADD_VACCINE : String := "ADD_VACCINE"
def ADD_EVENT : String := "ADD_EVENT"

/-- The `prompts` dictionary of the `SELECT|` branch, with the
`prompts.get(action, "Введите данные")` default. -/
def selectPrompt (action : String) : String :=
  if action == "INFO" then "Загружаю информацию..."
  else if action == ADD_WEIGHT then "Введите вес питомца в килограммах (например, 5.3)"
  else if action == ADD_CARE then "Опишите обработку (препарат, дозировка, причина)"
  else if action == ADD_VACCINE then "Укажите вакцинацию (название препарата, дата)"
  else if action == ADD_EVENT then "Опишите событие"
  else "Введите данные"

/-- Split at the first occurrence of `sep`, or `none` when absent. -/
def splitOnce (l : List Char) (sep : Char) : Option (List Char × List Char) :=
  match l with
  | [] => none
  | c :: rest =>
    if c == sep then some ([], rest)
    else (splitOnce rest sep).map (fun ab => (c :: ab.1, ab.2))

/-- `data.split("|", 2)` followed by `int(pet_id_str)` on a string that starts
with `"SELECT|"`: parts are `["SELECT", action, pet_id_str]`; the handler's
`except ValueError` branch corresponds to `none` (fewer than three parts, or
a non-integer id). -/
def parseSelect (data : String) : Option (String × Int) :=
  match splitOnce (data.data.drop 7) '|' with
  | none => none
  | some (a, b) =>
    match pyIntParse ⟨b⟩ with
    | none => none
    | some pid => some (⟨a⟩, pid)

/-- Observable outcome of `handle_callback`: the user_data afterwards, the
database afterwards, and the text of the reply (buttons are transport-level
and not modelled). -/
structure CbResult where
  ud : UserData
  store : Store
  reply : String
deriving DecidableEq, Repr

/-- `handle_callback(update, context)`: the callback-query router, as a
function of the database, the user's `user_data`, and the callback token. -/
def handle_callback (store : Store) (ud : UserData) (data : String) : CbResult :=
  if data == MAIN_MENU then ⟨.empty, store, "Выберите действие:"⟩
  else if data == ADD_PET then
    ⟨⟨some "ADD_PET_NAME", none⟩, store, "Введите имя питомца и отправьте сообщением."⟩
  else if data == LIST_PETS then
    let pets := fetch_pets store
    let text := if pets.isEmpty then "Питомцы ещё не добавлены"
                else "Питомцы:\n" ++ String.intercalate "\n" (pets.map Pet.name)
    ⟨ud, store, text⟩
  else if data == PET_INFO then
    ⟨.empty, store,
     if (fetch_pets store).isEmpty then "Питомцы ещё не добавлены" else "Выберите питомца:"⟩
  else if data == ADD_WEIGHT || data == ADD_CARE || data == ADD_VACCINE || data == ADD_EVENT then
    ⟨.empty, store,
     if (fetch_pets store).isEmpty then "Сначала добавьте питомца" else "Выберите питомца:"⟩
  else if pyStartsWith data "SELECT|" then
    match parseSelect data with
    | none => ⟨ud, store, "Некорректные данные"⟩
    | some (action, pid) =>
      if action == "INFO" then
        match get_pet store pid with
        | none => ⟨.empty, store, "Питомец не найден"⟩
        | some pet => ⟨.empty, store, render_pet_summary pet⟩
      else ⟨⟨some action, some pid⟩, store, selectPrompt action⟩
  else ⟨ud, store, "Неизвестная команда"⟩

/-- Observable outcome of `handle_user_message`. -/
structure MsgResult where
  ud : UserData
  store : Store
  reply : String
deriving DecidableEq, Repr

/-- `handle_user_message(update, context)`: the free-text router, as a
function of the database, `user_data`, the current time and the message text.
`none` models an exception escaping the handler (the duplicate-name commit of
`ensure_pet`); Python falsiness of `state`/`pet_id` (`if not state`,
`if not pet_id`) covers both the absent and the empty/zero value. -/
def handle_user_message (store : Store) (ud : UserData) (now : Nat)
    (rawText : String) : Option MsgResult :=
  let stateFalsy := match ud.state with
    | none => true
    | some st => st == ""
  if stateFalsy then some ⟨ud, store, "Выберите действие из меню."⟩
  else
    let state := ud.state.getD ""
    let text := pyStrip rawText
    if state == "ADD_PET_NAME" then
      if text == "" then some ⟨ud, store, "Имя не может быть пустым"⟩
      else
        match ensure_pet store now text with
        | .error _ => none
        | .ok (pet, store1) =>
          some ⟨.empty, store1, "Питомец " ++ pet.name ++ " добавлен."⟩
    else
      let petIdFalsy := match ud.pet_id with
        | none => true
        | some pid => pid == 0
      if petIdFalsy then some ⟨.empty, store, "Сначала выберите питомца через меню."⟩
      else
        let pid := ud.pet_id.getD 0
        match get_pet store pid with
        | none => some ⟨.empty, store, "Питомец не найден"⟩
        | some pet =>
          if state == ADD_WEIGHT then
            match pyFloatParse (pyReplaceCommaDot text) with
            | none => some ⟨ud, store, "Не удалось прочитать вес. Введите число, например 5.3"⟩
            | some value =>
              some ⟨.empty,
                updatePet store (pet.id : Int)
                  (fun p => { p with weights := p.weights ++ [(now, value)] }),
                "Вес " ++ fmtVal value ++ " кг сохранён для " ++ pet.name⟩
          else if state == ADD_CARE then
            some ⟨.empty,
              updatePet store (pet.id : Int)
                (fun p => { p with treatments := p.treatments ++ [(now, text)] }),
              "Обработка сохранена для " ++ pet.name⟩
          else if state == ADD_VACCINE then
            some ⟨.empty,
              updatePet store (pet.id : Int)
                (fun p => { p with vaccines := p.vaccines ++ [(now, text)] }),
              "Вакцинация сохранена для " ++ pet.name⟩
          else if state == ADD_EVENT then
            some ⟨.empty,
              updatePet store (pet.id : Int)
                (fun p => { p with events := p.events ++ [(now, text)] }),
              "Событие сохранено для " ++ pet.name⟩
          else some ⟨.empty, store, "Неизвестная операция"⟩

-- --------------------
-- Startup URL translation
-- --------------------

/-- A connection URL reduced to the parts `sanitize_db_url`/`_make_async_url`
inspect: the driver name and the query string as a key/value list. -/
structure DBUrl where
  drivername : String
  query : List (String × String)
deriving DecidableEq, Repr

/-- Key order of `dict(parse_qsl(...))`: first occurrence of each key. -/
def dedupKeys : List (String × String) → List String
  | [] => []
  | (k, _) :: rest => k :: (dedupKeys rest).filter (fun k2 => k2 != k)

/-- Value retained by `dict(...)` for a key: the last one. -/
def lastVal (q : List (String × String)) (k : String) : Option String :=
  (q.reverse.find? (fun kv => kv.1 == k)).map Prod.snd

/-- Python `dict(parse_qsl(query, keep_blank_values=True))`: first-occurrence
key order, last value wins. -/
def dictOf (q : List (String × String)) : List (String × String) :=
  (dedupKeys q).map (fun k => (k, (lastVal q k).getD ""))

/-- `sanitize_db_url(url)`: collapse the query to a dict and pop
`channel_binding`. -/
def sanitize_db_url (u : DBUrl) : DBUrl :=
  ⟨u.drivername, (dictOf u.query).filter (fun kv => kv.1 != "channel_binding")⟩

/-- Result of `_make_async_url`: the rewritten URL and the `connect_args`
dictionary (`some true` for `{"ssl": True}`, `none` for `{}`). -/
structure AsyncUrlResult where
  url : DBUrl
  ssl : Option Bool
deriving DecidableEq, Repr

/-- `_make_async_url(url)`: sanitize, read and pop `sslmode`, compute
`bool(sslmode and sslmode.lower() != "disable")`, and swap the driver to
`postgresql+asyncpg` (with the popped query) only when the driver name starts
with `postgres`; otherwise the sanitized URL — still carrying `sslmode` — is
kept as is. -/
def make_async_url (u : DBUrl) : AsyncUrlResult :=
  let u1 := sanitize_db_url u
  let sslmode := (u1.query.find? (fun kv => kv.1 == "sslmode")).map Prod.snd
  let query := u1.query.filter (fun kv => kv.1 != "sslmode")
  let ssl_required : Bool := match sslmode with
    | none => false
    | some s => s != "" && pyLower s != "disable"
  let url2 := if pyStartsWith u1.drivername "postgres"
    then (⟨"postgresql+asyncpg", query⟩ : DBUrl)
    else u1
  ⟨url2, if ssl_required then some true else none⟩

-- --------------------
-- Fixtures and helper lemmas
-- --------------------

/-- A store holding one pet named `Rex` with id 1 and no entries. -/
def rex : Pet := ⟨1, "Rex", 0, [], [], [], []⟩

/-- Example store with just `rex`. -/
def sEx : Store := ⟨[rex], 2⟩

/-- The empty store (autoincrement at 1). -/
def sEmpty : Store := ⟨[], 1⟩

/-- One rendered entry line, in the association `format_entries` produces. -/
def entryLine (t : Nat) (body : String) : String := fmtTs t ++ ": " ++ body

/-- The rendered weight-section lines of a pet. -/
def weightLines (pet : Pet) : List String :=
  (sortByTs pet.weights).map fun e => entryLine e.1 (fmtVal e.2 ++ " кг")

/-- The rendered treatments-section lines of a pet. -/
def treatLines (pet : Pet) : List String :=
  (sortByTs pet.treatments).map fun e => entryLine e.1 e.2

/-- The rendered vaccines-section lines of a pet. -/
def vaccineLines (pet : Pet) : List String :=
  (sortByTs pet.vaccines).map fun e => entryLine e.1 e.2

/-- The rendered events-section lines of a pet. -/
def eventLines (pet : Pet) : List String :=
  (sortByTs pet.events).map fun e => entryLine e.1 e.2

theorem get_pet_id_eq {s : Store} {pid : Int} {pet : Pet}
    (h : get_pet s pid = some pet) : (pet.id : Int) = pid := by
  have := List.find?_some h
  simpa using this

theorem find?_map_update (l : List Pet) (pid : Int) (f : Pet → Pet)
    (hid : ∀ p, (f p).id = p.id) (pet : Pet)
    (h : l.find? (fun p => (p.id : Int) == pid) = some pet) :
    (l.map (fun p => if ((p.id : Int) == pid) = true then f p else p)).find?
      (fun p => (p.id : Int) == pid) = some (f pet) := by
  induction l with
  | nil => simp at h
  | cons a l ih =>
    by_cases ha : ((a.id : Int) == pid) = true
    · rw [List.find?_cons_of_pos (p := fun (q : Pet) => ((q.id : Int) == pid)) _ ha] at h
      obtain rfl : a = pet := by injection h
      have hfa : (((f a).id : Int) == pid) = true := by rw [hid a]; exact ha
      simp only [List.map_cons, if_pos ha]
      exact List.find?_cons_of_pos (p := fun (q : Pet) => ((q.id : Int) == pid)) _ hfa
    · rw [List.find?_cons_of_neg (p := fun (q : Pet) => ((q.id : Int) == pid)) _ ha] at h
      simp only [List.map_cons, if_neg ha]
      rw [List.find?_cons_of_neg (p := fun (q : Pet) => ((q.id : Int) == pid)) _ ha]
      exact ih h

theorem get_pet_updatePet {s : Store} {pid : Int} {pet : Pet} (f : Pet → Pet)
    (hid : ∀ p, (f p).id = p.id) (h : get_pet s pid = some pet) :
    get_pet (updatePet s pid f) pid = some (f pet) := by
  unfold get_pet updatePet
  unfold get_pet at h
  exact find?_map_update s.pets pid f hid pet h

theorem mem_sortByTs {α : Type} {l : List (Nat × α)} {e : Nat × α} (h : e ∈ l) :
    e ∈ sortByTs l :=
  (List.mem_insertionSort _).2 h

instance {α : Type} : IsTotal (Nat × α) (fun a b => a.1 ≤ b.1) :=
  ⟨fun a b => Nat.le_total a.1 b.1⟩

instance {α : Type} : IsTrans (Nat × α) (fun a b => a.1 ≤ b.1) :=
  ⟨fun _ _ _ h1 h2 => Nat.le_trans h1 h2⟩

theorem sortByTs_perm {α : Type} (l : List (Nat × α)) : List.Perm (sortByTs l) l :=
  List.perm_insertionSort _ l

theorem sortByTs_pairwise {α : Type} (l : List (Nat × α)) :
    List.Pairwise (fun a b => a.1 ≤ b.1) (sortByTs l) :=
  List.sorted_insertionSort _ l

theorem sortByTs_eq_nil_iff {α : Type} (l : List (Nat × α)) :
    sortByTs l = [] ↔ l = [] := by
  constructor
  · intro h
    have hp := sortByTs_perm l
    rw [h] at hp
    exact hp.symm.eq_nil
  · intro h; subst h; rfl

theorem format_entries_of_ne_nil {α : Type} (l : List (Nat × α)) (t : String)
    (f : α → String) (h : l ≠ []) :
    format_entries l t f = t ++ ":\n" ++
      String.intercalate "\n" (l.map fun e => fmtTs e.1 ++ ": " ++ f e.2) := by
  simp [format_entries, h]

theorem weightSection_of_ne_nil (pet : Pet) (h : pet.weights ≠ []) :
    weightSection pet = "Вес:\n" ++ String.intercalate "\n" (weightLines pet) :=
  format_entries_of_ne_nil _ _ _ ((not_congr (sortByTs_eq_nil_iff _)).2 h)

theorem treatSection_of_ne_nil (pet : Pet) (h : pet.treatments ≠ []) :
    treatSection pet = "Обработки:\n" ++ String.intercalate "\n" (treatLines pet) :=
  format_entries_of_ne_nil _ _ _ ((not_congr (sortByTs_eq_nil_iff _)).2 h)

theorem vaccineSection_of_ne_nil (pet : Pet) (h : pet.vaccines ≠ []) :
    vaccineSection pet = "Вакцины:\n" ++ String.intercalate "\n" (vaccineLines pet) :=
  format_entries_of_ne_nil _ _ _ ((not_congr (sortByTs_eq_nil_iff _)).2 h)

theorem eventSection_of_ne_nil (pet : Pet) (h : pet.events ≠ []) :
    eventSection pet = "События:\n" ++ String.intercalate "\n" (eventLines pet) :=
  format_entries_of_ne_nil _ _ _ ((not_congr (sortByTs_eq_nil_iff _)).2 h)

-- --------------------
-- Claims
-- --------------------

/-- **C1, counterexample.** `ensure_pet` does NOT look up by the trimmed
name and is not idempotent on untrimmed input: on the empty store, the first
call with `" Rex "` creates a pet named `"Rex"`, and the second call with the
same argument misses it (lookup uses the untrimmed `" Rex "`), attempts a
duplicate insert of `"Rex"`, and the commit fails on the unique constraint
instead of returning the existing pet. -/
theorem c1_counterexample :
    pyStrip " Rex " = "Rex" ∧
    ensure_pet sEmpty 0 " Rex " =
      .ok (⟨1, "Rex", 0, [], [], [], []⟩, ⟨[⟨1, "Rex", 0, [], [], [], []⟩], 2⟩) ∧
    ensure_pet ⟨[⟨1, "Rex", 0, [], [], [], []⟩], 2⟩ 1 " Rex " = .error () :=
  ⟨rfl, rfl, rfl⟩

/-- **C1, amended.** For every name `n` that is already trimmed
(`pyStrip n = n` — in particular every name the message router passes in,
since it strips the text first), `ensure_pet` is idempotent: the first call
returns a pet and a store, the second call returns the same pet and the same
store; the returned pet bears the name `n`; when a pet with that exact name
already exists it is returned unchanged with the store untouched; and when it
is absent exactly one pet is appended. -/
theorem c1_ensure_pet_idempotent (s : Store) (t1 t2 : Nat) (n : String)
    (h : pyStrip n = n) :
    ∃ p s1,
      ensure_pet s t1 n = .ok (p, s1) ∧
      ensure_pet s1 t2 n = .ok (p, s1) ∧
      p.name = n ∧
      (∀ q, s.pets.find? (fun r => r.name == n) = some q → p = q ∧ s1 = s) ∧
      (s.pets.find? (fun r => r.name == n) = none → s1.pets = s.pets ++ [p]) := by
  cases hf : s.pets.find? (fun r => r.name == n) with
  | some q =>
    refine ⟨q, s, ?_, ?_, ?_, ?_, ?_⟩
    · simp only [ensure_pet, hf]
    · simp only [ensure_pet, hf]
    · simpa using List.find?_some hf
    · intro q' hq'
      injection hq' with h2
      exact ⟨h2, rfl⟩
    · intro hn; exact absurd hn (by simp)
  | none =>
    have hnone : ∀ r ∈ s.pets, ¬ (r.name == n) = true := List.find?_eq_none.1 hf
    have hany : (s.pets.any (fun p => p.name == pyStrip n)) = false := by
      rw [h, List.any_eq_false]
      exact hnone
    refine ⟨⟨s.nextId, pyStrip n, t1, [], [], [], []⟩,
      ⟨s.pets ++ [⟨s.nextId, pyStrip n, t1, [], [], [], []⟩], s.nextId + 1⟩, ?_, ?_, ?_, ?_, ?_⟩
    · simp [ensure_pet, hf, hany]
    · have hfind : (s.pets ++ [(⟨s.nextId, pyStrip n, t1, [], [], [], []⟩ : Pet)]).find?
          (fun r => r.name == n) = some ⟨s.nextId, pyStrip n, t1, [], [], [], []⟩ := by
        rw [List.find?_append, hf, Option.none_or]
        exact List.find?_cons_of_pos (p := fun (r : Pet) => r.name == n) _ (by simp [h])
      simp only [ensure_pet, hfind]
    · simpa using h
    · intro q' hq'; exact absurd hq' (by simp)
    · intro _; rfl

/-- **C1, witness for the amended theorem** at the trimmed name `"Rex"` on
the example store. -/
theorem c1_witness :
    pyStrip "Rex" = "Rex" ∧
    (∃ p s1,
      ensure_pet sEx 3 "Rex" = .ok (p, s1) ∧
      ensure_pet s1 4 "Rex" = .ok (p, s1) ∧
      p.name = "Rex" ∧
      (∀ q, sEx.pets.find? (fun r => r.name == "Rex") = some q → p = q ∧ s1 = sEx) ∧
      (sEx.pets.find? (fun r => r.name == "Rex") = none → s1.pets = sEx.pets ++ [p])) :=
  ⟨by decide, c1_ensure_pet_idempotent sEx 3 4 "Rex" (by decide)⟩

/-- **C2, counterexample.** The selection token `SELECT|BOGUS|5` is not one
of the recognized ones (its action `BOGUS` is unknown), yet the router does
not answer with the fixed unrecognized response: it writes both `user_data`
fields (state `BOGUS`, pet id 5) and replies with the generic prompt
`Введите данные`. -/
theorem c2_counterexample :
    handle_callback sEx UserData.empty "SELECT|BOGUS|5" =
      ⟨⟨some "BOGUS", some 5⟩, sEx, "Введите данные"⟩ ∧
    (⟨some "BOGUS", some 5⟩ : UserData) ≠ UserData.empty ∧
    "Введите данные" ≠ "Неизвестная команда" ∧
    "Введите данные" ≠ "Некорректные данные" := by
  refine ⟨by decide, by decide, by decide, by decide⟩

/-- **C2, amended.** An inbound callback token that is none of the eight
recognized top-level tokens and does not start with `SELECT|` gets the fixed
`Неизвестная команда` response with `user_data` and the store unchanged; one
that starts with `SELECT|` but whose remainder does not parse as
`action|integer` gets the fixed `Некорректные данные` response, again with no
mutation.  (A `SELECT|` token with a parseable integer id but an unrecognized
action, however, mutates `user_data` and replies with a generic prompt — see
the counterexample.) -/
theorem c2_unknown_token_no_mutation (s : Store) (ud : UserData) (data : String)
    (h1 : data ∉ [MAIN_MENU, ADD_PET, LIST_PETS, PET_INFO, ADD_WEIGHT,
                  ADD_CARE, ADD_VACCINE, ADD_EVENT]) :
    (pyStartsWith data "SELECT|" = false →
      handle_callback s ud data = ⟨ud, s, "Неизвестная команда"⟩) ∧
    (pyStartsWith data "SELECT|" = true → parseSelect data = none →
      handle_callback s ud data = ⟨ud, s, "Некорректные данные"⟩) := by
  simp only [List.mem_cons, List.not_mem_nil, or_false, not_or] at h1
  obtain ⟨e1, e2, e3, e4, e5, e6, e7, e8⟩ := h1
  constructor
  · intro hsw
    simp [handle_callback, e1, e2, e3, e4, e5, e6, e7, e8, hsw]
  · intro hsw hps
    simp [handle_callback, e1, e2, e3, e4, e5, e6, e7, e8, hsw, hps]

/-- **C2, witness for the amended theorem**: the unknown token `"FOO"` and
the malformed selection `"SELECT|INFO"`. -/
theorem c2_witness :
    ("FOO" : String) ∉ [MAIN_MENU, ADD_PET, LIST_PETS, PET_INFO, ADD_WEIGHT,
      ADD_CARE, ADD_VACCINE, ADD_EVENT] ∧
    handle_callback sEx UserData.empty "FOO" = ⟨UserData.empty, sEx, "Неизвестная команда"⟩ ∧
    ("SELECT|INFO" : String) ∉ [MAIN_MENU, ADD_PET, LIST_PETS, PET_INFO, ADD_WEIGHT,
      ADD_CARE, ADD_VACCINE, ADD_EVENT] ∧
    handle_callback sEx UserData.empty "SELECT|INFO" = ⟨UserData.empty, sEx, "Некорректные данные"⟩ :=
  ⟨by decide,
   (c2_unknown_token_no_mutation sEx UserData.empty "FOO" (by decide)).1 (by decide),
   by decide,
   (c2_unknown_token_no_mutation sEx UserData.empty "SELECT|INFO" (by decide)).2
     (by decide) (by decide)⟩

/-- **C3, confirmed.** Weight parsing maps `"5.3"` and `"5,3"` to the value
5.3 (the router replaces `,` with `.` before `float(...)`), and in the
add-weight state both inputs append that weight for the selected pet; the
non-numeric `"abc"` yields the corrective message, leaves the store
unchanged, and creates no entry (the conversation state is also kept). -/
theorem c3_weight_parsing :
    pyFloatParse "5.3" = some (.finite 53 10) ∧
    pyFloatParse (pyReplaceCommaDot "5,3") = some (.finite 53 10) ∧
    handle_user_message sEx ⟨some ADD_WEIGHT, some 1⟩ 100 "5.3" =
      some ⟨UserData.empty, ⟨[⟨1, "Rex", 0, [(100, .finite 53 10)], [], [], []⟩], 2⟩,
        "Вес " ++ fmtVal (.finite 53 10) ++ " кг сохранён для Rex"⟩ ∧
    handle_user_message sEx ⟨some ADD_WEIGHT, some 1⟩ 100 "5,3" =
      some ⟨UserData.empty, ⟨[⟨1, "Rex", 0, [(100, .finite 53 10)], [], [], []⟩], 2⟩,
        "Вес " ++ fmtVal (.finite 53 10) ++ " кг сохранён для Rex"⟩ ∧
    handle_user_message sEx ⟨some ADD_WEIGHT, some 1⟩ 100 "abc" =
      some ⟨⟨some ADD_WEIGHT, some 1⟩, sEx,
        "Не удалось прочитать вес. Введите число, например 5.3"⟩ :=
  ⟨by decide, by decide, by decide, by decide, by decide⟩

/-- **C5, confirmed.** Malformed input leaves the conversation state exactly
as it was and only emits a corrective message: an empty (whitespace-only) pet
name in the awaiting-pet-name state, and an unparseable weight in the
add-weight state, both return with `user_data` and the store untouched — the
state machine never silently advances on malformed input. -/
theorem c5_malformed_input_keeps_state (s : Store) (now : Nat) (txt : String)
    (pid : Int) (pet : Pet) (hpid : (pid == 0) = false)
    (hp : get_pet s pid = some pet) :
    (pyStrip txt = "" →
      handle_user_message s ⟨some "ADD_PET_NAME", some pid⟩ now txt =
        some ⟨⟨some "ADD_PET_NAME", some pid⟩, s, "Имя не может быть пустым"⟩ ∧
      handle_user_message s ⟨some "ADD_PET_NAME", none⟩ now txt =
        some ⟨⟨some "ADD_PET_NAME", none⟩, s, "Имя не может быть пустым"⟩) ∧
    (pyFloatParse (pyReplaceCommaDot (pyStrip txt)) = none →
      handle_user_message s ⟨some ADD_WEIGHT, some pid⟩ now txt =
        some ⟨⟨some ADD_WEIGHT, some pid⟩, s,
          "Не удалось прочитать вес. Введите число, например 5.3"⟩) := by
  constructor
  · intro he
    constructor <;> simp [handle_user_message, he]
  · intro hparse
    simp [handle_user_message, ADD_WEIGHT, hpid, hp, hparse]

/-- **C5, witness**: the empty input `""` is both an empty pet name and an
unparseable weight; on the one-pet example store neither moves the state. -/
theorem c5_witness :
    ((1 : Int) == 0) = false ∧ get_pet sEx 1 = some rex ∧
    handle_user_message sEx ⟨some "ADD_PET_NAME", some 1⟩ 0 "" =
      some ⟨⟨some "ADD_PET_NAME", some 1⟩, sEx, "Имя не может быть пустым"⟩ ∧
    handle_user_message sEx ⟨some ADD_WEIGHT, some 1⟩ 0 "" =
      some ⟨⟨some ADD_WEIGHT, some 1⟩, sEx,
        "Не удалось прочитать вес. Введите число, например 5.3"⟩ :=
  ⟨by decide, by decide,
   ((c5_malformed_input_keeps_state sEx 0 "" 1 rex (by decide) (by decide)).1
     (by decide)).1,
   (c5_malformed_input_keeps_state sEx 0 "" 1 rex (by decide) (by decide)).2
     (by decide)⟩

/-- **C8, confirmed.** Looking up a pet by an absent identifier returns a
not-found value (`none`) rather than raising, and both routers then show the
`Питомец не найден` message, create no entry (store unchanged), and clear the
conversation state: the free-text handler in any field-entry state, and the
callback handler on a `SELECT|INFO|<id>` selection. -/
theorem c8_absent_pet_not_found (s : Store) (ud : UserData) (now : Nat)
    (txt : String) (pid : Int) (st : String) (data : String)
    (habs : get_pet s pid = none) (hpid : (pid == 0) = false)
    (hst1 : st ≠ "") (hst2 : st ≠ "ADD_PET_NAME")
    (hne : data ∉ [MAIN_MENU, ADD_PET, LIST_PETS, PET_INFO, ADD_WEIGHT,
                   ADD_CARE, ADD_VACCINE, ADD_EVENT])
    (hsw : pyStartsWith data "SELECT|" = true)
    (hps : parseSelect data = some ("INFO", pid)) :
    handle_user_message s ⟨some st, some pid⟩ now txt =
      some ⟨UserData.empty, s, "Питомец не найден"⟩ ∧
    handle_callback s ud data = ⟨UserData.empty, s, "Питомец не найден"⟩ := by
  simp only [List.mem_cons, List.not_mem_nil, or_false, not_or] at hne
  obtain ⟨e1, e2, e3, e4, e5, e6, e7, e8⟩ := hne
  constructor
  · simp [handle_user_message, hst1, hst2, hpid, habs]
  · simp [handle_callback, e1, e2, e3, e4, e5, e6, e7, e8, hsw, hps, habs]

/-- **C8, witness**: id 7 is absent from the one-pet example store; both the
message route (in the add-care state) and the `SELECT|INFO|7` callback
answer not-found with cleared state and untouched store. -/
theorem c8_witness :
    get_pet sEx 7 = none ∧
    handle_user_message sEx ⟨some ADD_CARE, some 7⟩ 0 "x" =
      some ⟨UserData.empty, sEx, "Питомец не найден"⟩ ∧
    handle_callback sEx ⟨some "X", some 9⟩ "SELECT|INFO|7" =
      ⟨UserData.empty, sEx, "Питомец не найден"⟩ :=
  ⟨by decide,
   (c8_absent_pet_not_found sEx ⟨some "X", some 9⟩ 0 "x" 7 ADD_CARE "SELECT|INFO|7"
     (by decide) (by decide) (by decide) (by decide) (by decide) (by decide) (by decide)).1,
   (c8_absent_pet_not_found sEx ⟨some "X", some 9⟩ 0 "x" 7 ADD_CARE "SELECT|INFO|7"
     (by decide) (by decide) (by decide) (by decide) (by decide) (by decide) (by decide)).2⟩

/-- **C10, confirmed.** The weight validator accepts exactly the strings that
parse as a Python float after replacing every `,` with `.` — including the
non-finite `inf` and `nan` and scientific notation `1e3` — and appends the
parsed value as a weight entry instead of rejecting it. -/
theorem c10_weight_accepts_py_floats (s : Store) (pid : Int) (pet : Pet)
    (now : Nat) (hp : get_pet s pid = some pet) (hpid : (pid == 0) = false) :
    (∀ txt v, pyFloatParse (pyReplaceCommaDot (pyStrip txt)) = some v →
      handle_user_message s ⟨some ADD_WEIGHT, some pid⟩ now txt =
        some ⟨UserData.empty,
          updatePet s (pet.id : Int)
            (fun p => { p with weights := p.weights ++ [(now, v)] }),
          "Вес " ++ fmtVal v ++ " кг сохранён для " ++ pet.name⟩) ∧
    pyFloatParse "inf" = some (.inf false) ∧
    pyFloatParse "nan" = some .nan ∧
    pyFloatParse "1e3" = some (.finite 1000 1) ∧
    (PyFloat.finite 1000 1).val = some (1000 : ℚ) := by
  refine ⟨?_, by decide, by decide, by decide, by norm_num [PyFloat.val]⟩
  intro txt v hv
  simp [handle_user_message, ADD_WEIGHT, hpid, hp, hv]

/-- **C10, witness**: `"inf"` is appended as a weight entry on the example
store. -/
theorem c10_witness :
    get_pet sEx 1 = some rex ∧ ((1 : Int) == 0) = false ∧
    handle_user_message sEx ⟨some ADD_WEIGHT, some 1⟩ 6 "inf" =
      some ⟨UserData.empty,
        updatePet sEx ((rex.id : Int))
          (fun p => { p with weights := p.weights ++ [(6, .inf false)] }),
        "Вес " ++ fmtVal (.inf false) ++ " кг сохранён для " ++ rex.name⟩ :=
  ⟨by decide, by decide,
   (c10_weight_accepts_py_floats sEx 1 rex 6 (by decide) (by decide)).1 "inf"
     (.inf false) (by decide)⟩

/-- **C4, confirmed.** For every pet and every valid entry append (a parseable
weight, or free text for treatment/vaccination/event), the append is in the
store the handler returns (the commit happens before the reply), the entry
carries exactly the append-time timestamp, and the summary sections rendered
from that store contain the entry verbatim: its `<timestamp>: <value>` line is
among the section lines of the pet read back from the returned store. -/
theorem c4_append_persisted_and_rendered (s : Store) (pet : Pet) (pid : Int)
    (now : Nat) (hp : get_pet s pid = some pet) (hpid : (pid == 0) = false) :
    (∀ txt v, pyFloatParse (pyReplaceCommaDot (pyStrip txt)) = some v →
      ∃ s1, handle_user_message s ⟨some ADD_WEIGHT, some pid⟩ now txt =
          some ⟨UserData.empty, s1, "Вес " ++ fmtVal v ++ " кг сохранён для " ++ pet.name⟩ ∧
        ∃ pet1, get_pet s1 pid = some pet1 ∧ (now, v) ∈ pet1.weights ∧
          entryLine now (fmtVal v ++ " кг") ∈ weightLines pet1 ∧
          weightSection pet1 = "Вес:\n" ++ String.intercalate "\n" (weightLines pet1)) ∧
    (∀ txt, ∃ s1, handle_user_message s ⟨some ADD_CARE, some pid⟩ now txt =
          some ⟨UserData.empty, s1, "Обработка сохранена для " ++ pet.name⟩ ∧
        ∃ pet1, get_pet s1 pid = some pet1 ∧ (now, pyStrip txt) ∈ pet1.treatments ∧
          entryLine now (pyStrip txt) ∈ treatLines pet1 ∧
          treatSection pet1 = "Обработки:\n" ++ String.intercalate "\n" (treatLines pet1)) ∧
    (∀ txt, ∃ s1, handle_user_message s ⟨some ADD_VACCINE, some pid⟩ now txt =
          some ⟨UserData.empty, s1, "Вакцинация сохранена для " ++ pet.name⟩ ∧
        ∃ pet1, get_pet s1 pid = some pet1 ∧ (now, pyStrip txt) ∈ pet1.vaccines ∧
          entryLine now (pyStrip txt) ∈ vaccineLines pet1 ∧
          vaccineSection pet1 = "Вакцины:\n" ++ String.intercalate "\n" (vaccineLines pet1)) ∧
    (∀ txt, ∃ s1, handle_user_message s ⟨some ADD_EVENT, some pid⟩ now txt =
          some ⟨UserData.empty, s1, "Событие сохранено для " ++ pet.name⟩ ∧
        ∃ pet1, get_pet s1 pid = some pet1 ∧ (now, pyStrip txt) ∈ pet1.events ∧
          entryLine now (pyStrip txt) ∈ eventLines pet1 ∧
          eventSection pet1 = "События:\n" ++ String.intercalate "\n" (eventLines pet1)) := by
  have hid := get_pet_id_eq hp
  refine ⟨?_, ?_, ?_, ?_⟩
  · intro txt v hv
    refine ⟨updatePet s (pet.id : Int)
      (fun p => { p with weights := p.weights ++ [(now, v)] }), ?_, ?_⟩
    · simp [handle_user_message, ADD_WEIGHT, hpid, hp, hv]
    · refine ⟨{ pet with weights := pet.weights ++ [(now, v)] }, ?_, by simp, ?_, ?_⟩
      · rw [hid]
        exact get_pet_updatePet _ (fun p => rfl) hp
      · have hm : (now, v) ∈ ({ pet with weights := pet.weights ++ [(now, v)] } : Pet).weights := by simp
        exact List.mem_map_of_mem _ (mem_sortByTs hm)
      · exact weightSection_of_ne_nil _ (by simp)
  · intro txt
    refine ⟨updatePet s (pet.id : Int)
      (fun p => { p with treatments := p.treatments ++ [(now, pyStrip txt)] }), ?_, ?_⟩
    · simp [handle_user_message, ADD_WEIGHT, ADD_CARE, hpid, hp]
    · refine ⟨{ pet with treatments := pet.treatments ++ [(now, pyStrip txt)] }, ?_, by simp, ?_, ?_⟩
      · rw [hid]
        exact get_pet_updatePet _ (fun p => rfl) hp
      · have hm : (now, pyStrip txt) ∈ ({ pet with treatments := pet.treatments ++ [(now, pyStrip txt)] } : Pet).treatments := by simp
        exact List.mem_map_of_mem _ (mem_sortByTs hm)
      · exact treatSection_of_ne_nil _ (by simp)
  · intro txt
    refine ⟨updatePet s (pet.id : Int)
      (fun p => { p with vaccines := p.vaccines ++ [(now, pyStrip txt)] }), ?_, ?_⟩
    · simp [handle_user_message, ADD_WEIGHT, ADD_CARE, ADD_VACCINE, hpid, hp]
    · refine ⟨{ pet with vaccines := pet.vaccines ++ [(now, pyStrip txt)] }, ?_, by simp, ?_, ?_⟩
      · rw [hid]
        exact get_pet_updatePet _ (fun p => rfl) hp
      · have hm : (now, pyStrip txt) ∈ ({ pet with vaccines := pet.vaccines ++ [(now, pyStrip txt)] } : Pet).vaccines := by simp
        exact List.mem_map_of_mem _ (mem_sortByTs hm)
      · exact vaccineSection_of_ne_nil _ (by simp)
  · intro txt
    refine ⟨updatePet s (pet.id : Int)
      (fun p => { p with events := p.events ++ [(now, pyStrip txt)] }), ?_, ?_⟩
    · simp [handle_user_message, ADD_WEIGHT, ADD_CARE, ADD_VACCINE, ADD_EVENT, hpid, hp]
    · refine ⟨{ pet with events := pet.events ++ [(now, pyStrip txt)] }, ?_, by simp, ?_, ?_⟩
      · rw [hid]
        exact get_pet_updatePet _ (fun p => rfl) hp
      · have hm : (now, pyStrip txt) ∈ ({ pet with events := pet.events ++ [(now, pyStrip txt)] } : Pet).events := by simp
        exact List.mem_map_of_mem _ (mem_sortByTs hm)
      · exact eventSection_of_ne_nil _ (by simp)

/-- **C4, witness**: a weight `5.3` appended at time 5 and a treatment
`"flea"` appended at time 6 for the example pet are immediately visible in
the returned store and rendered verbatim in the matching section. -/
theorem c4_witness :
    get_pet sEx 1 = some rex ∧ ((1 : Int) == 0) = false ∧
    pyFloatParse (pyReplaceCommaDot (pyStrip "5.3")) = some (.finite 53 10) ∧
    (∃ s1, handle_user_message sEx ⟨some ADD_WEIGHT, some 1⟩ 5 "5.3" =
        some ⟨UserData.empty, s1, "Вес " ++ fmtVal (.finite 53 10) ++ " кг сохранён для " ++ rex.name⟩ ∧
      ∃ pet1, get_pet s1 1 = some pet1 ∧ ((5 : Nat), PyFloat.finite 53 10) ∈ pet1.weights ∧
        entryLine 5 (fmtVal (.finite 53 10) ++ " кг") ∈ weightLines pet1 ∧
        weightSection pet1 = "Вес:\n" ++ String.intercalate "\n" (weightLines pet1)) ∧
    (∃ s1, handle_user_message sEx ⟨some ADD_CARE, some 1⟩ 6 "flea" =
        some ⟨UserData.empty, s1, "Обработка сохранена для " ++ rex.name⟩ ∧
      ∃ pet1, get_pet s1 1 = some pet1 ∧ ((6 : Nat), pyStrip "flea") ∈ pet1.treatments ∧
        entryLine 6 (pyStrip "flea") ∈ treatLines pet1 ∧
        treatSection pet1 = "Обработки:\n" ++ String.intercalate "\n" (treatLines pet1)) :=
  ⟨by decide, by decide, by decide,
   (c4_append_persisted_and_rendered sEx rex 1 5 (by decide) (by decide)).1 "5.3"
     (.finite 53 10) (by decide),
   (c4_append_persisted_and_rendered sEx rex 1 6 (by decide) (by decide)).2.1 "flea"⟩

/-- **C6, counterexample.** The list-pets button is a top-level menu action,
yet it does not reset the per-user conversation state: with a pending
add-weight operation (state `ADD_WEIGHT`, pet id 1), pressing `LIST_PETS`
leaves `user_data` exactly as it was (the next free-text message would still
be treated as a weight). -/
theorem c6_counterexample :
    handle_callback sEx ⟨some ADD_WEIGHT, some 1⟩ LIST_PETS =
      ⟨⟨some ADD_WEIGHT, some 1⟩, sEx, "Питомцы:\nRex"⟩ ∧
    (⟨some ADD_WEIGHT, some 1⟩ : UserData) ≠ UserData.empty :=
  ⟨by decide, by decide⟩

/-- **C6, amended.** The conversation state is atomically reset at the start
of every top-level menu action *except list-pets* (which leaves it untouched):
main-menu, add-pet (which then sets only the fresh name-entry state),
pet-info and the four field actions all clear `user_data`; and it is reset
after every operation completes, with success or terminal failure: a
non-empty add-pet-name input (when the handler returns at all), any
field-entry or unknown state except a weight parse failure, and an `INFO`
selection (pet found or not). -/
theorem c6_state_reset (s : Store) (ud : UserData) (now : Nat) (txt : String) :
    (handle_callback s ud MAIN_MENU).ud = UserData.empty ∧
    (handle_callback s ud ADD_PET).ud = ⟨some "ADD_PET_NAME", none⟩ ∧
    (handle_callback s ud PET_INFO).ud = UserData.empty ∧
    (handle_callback s ud ADD_WEIGHT).ud = UserData.empty ∧
    (handle_callback s ud ADD_CARE).ud = UserData.empty ∧
    (handle_callback s ud ADD_VACCINE).ud = UserData.empty ∧
    (handle_callback s ud ADD_EVENT).ud = UserData.empty ∧
    (handle_callback s ud LIST_PETS).ud = ud ∧
    (∀ r, pyStrip txt ≠ "" →
      handle_user_message s ⟨some "ADD_PET_NAME", ud.pet_id⟩ now txt = some r →
      r.ud = UserData.empty) ∧
    (∀ st pid r, st ≠ "" → st ≠ "ADD_PET_NAME" →
      ¬(st = ADD_WEIGHT ∧ pyFloatParse (pyReplaceCommaDot (pyStrip txt)) = none) →
      handle_user_message s ⟨some st, pid⟩ now txt = some r →
      r.ud = UserData.empty) ∧
    (∀ data action pid, pyStartsWith data "SELECT|" = true →
      data ∉ [MAIN_MENU, ADD_PET, LIST_PETS, PET_INFO, ADD_WEIGHT,
              ADD_CARE, ADD_VACCINE, ADD_EVENT] →
      parseSelect data = some (action, pid) → action = "INFO" →
      (handle_callback s ud data).ud = UserData.empty) := by
  refine ⟨by simp [handle_callback, MAIN_MENU], ?_, ?_, ?_, ?_, ?_, ?_, ?_, ?_, ?_, ?_⟩
  · simp [handle_callback, MAIN_MENU, ADD_PET]
  · simp [handle_callback, MAIN_MENU, ADD_PET, LIST_PETS, PET_INFO]
  · simp [handle_callback, MAIN_MENU, ADD_PET, LIST_PETS, PET_INFO, ADD_WEIGHT]
  · simp [handle_callback, MAIN_MENU, ADD_PET, LIST_PETS, PET_INFO, ADD_WEIGHT, ADD_CARE]
  · simp [handle_callback, MAIN_MENU, ADD_PET, LIST_PETS, PET_INFO, ADD_WEIGHT, ADD_CARE,
      ADD_VACCINE]
  · simp [handle_callback, MAIN_MENU, ADD_PET, LIST_PETS, PET_INFO, ADD_WEIGHT, ADD_CARE,
      ADD_VACCINE, ADD_EVENT]
  · simp [handle_callback, MAIN_MENU, ADD_PET, LIST_PETS]
  · intro r hne heq
    have hb : (pyStrip txt == "") = false := by simp [hne]
    cases he : ensure_pet s now (pyStrip txt) with
    | error u =>
      rw [show handle_user_message s ⟨some "ADD_PET_NAME", ud.pet_id⟩ now txt = none from by
        simp [handle_user_message, hb, he]] at heq
      cases heq
    | ok val =>
      obtain ⟨pet, store1⟩ := val
      rw [show handle_user_message s ⟨some "ADD_PET_NAME", ud.pet_id⟩ now txt =
          some ⟨UserData.empty, store1, "Питомец " ++ pet.name ++ " добавлен."⟩ from by
        simp [handle_user_message, hb, he]] at heq
      cases Option.some.inj heq
      rfl
  · intro st pid r h1 h2 h3 heq
    have hb1 : (st == "") = false := by simp [h1]
    have hb2 : (st == "ADD_PET_NAME") = false := by simp [h2]
    rcases pid with _ | pidv
    · rw [show handle_user_message s ⟨some st, none⟩ now txt =
          some ⟨UserData.empty, s, "Сначала выберите питомца через меню."⟩ from by
        simp [handle_user_message, hb1, hb2]] at heq
      cases Option.some.inj heq
      rfl
    · by_cases h0 : (pidv == 0) = true
      · rw [show handle_user_message s ⟨some st, some pidv⟩ now txt =
            some ⟨UserData.empty, s, "Сначала выберите питомца через меню."⟩ from by
          simp [handle_user_message, hb1, hb2, h0]] at heq
        cases Option.some.inj heq
        rfl
      · have h0' : (pidv == 0) = false := by
          cases hb : (pidv == 0) with
          | false => rfl
          | true => exact absurd hb h0
        cases hg : get_pet s pidv with
        | none =>
          rw [show handle_user_message s ⟨some st, some pidv⟩ now txt =
              some ⟨UserData.empty, s, "Питомец не найден"⟩ from by
            simp [handle_user_message, hb1, hb2, h0', hg]] at heq
          cases Option.some.inj heq
          rfl
        | some pet =>
          by_cases hw : st = ADD_WEIGHT
          · subst hw
            cases hv : pyFloatParse (pyReplaceCommaDot (pyStrip txt)) with
            | none => exact absurd ⟨rfl, hv⟩ h3
            | some v =>
              rw [show handle_user_message s ⟨some ADD_WEIGHT, some pidv⟩ now txt =
                  some ⟨UserData.empty,
                    updatePet s (pet.id : Int)
                      (fun p => { p with weights := p.weights ++ [(now, v)] }),
                    "Вес " ++ fmtVal v ++ " кг сохранён для " ++ pet.name⟩ from by
                simp [handle_user_message, ADD_WEIGHT, hb1, hb2, h0', hg, hv]] at heq
              cases Option.some.inj heq
              rfl
          · by_cases hc : st = ADD_CARE
            · subst hc
              rw [show handle_user_message s ⟨some ADD_CARE, some pidv⟩ now txt =
                  some ⟨UserData.empty,
                    updatePet s (pet.id : Int)
                      (fun p => { p with treatments := p.treatments ++ [(now, pyStrip txt)] }),
                    "Обработка сохранена для " ++ pet.name⟩ from by
                simp [handle_user_message, ADD_WEIGHT, ADD_CARE, hb1, hb2, h0', hg]] at heq
              cases Option.some.inj heq
              rfl
            · by_cases hvc : st = ADD_VACCINE
              · subst hvc
                rw [show handle_user_message s ⟨some ADD_VACCINE, some pidv⟩ now txt =
                    some ⟨UserData.empty,
                      updatePet s (pet.id : Int)
                        (fun p => { p with vaccines := p.vaccines ++ [(now, pyStrip txt)] }),
                      "Вакцинация сохранена для " ++ pet.name⟩ from by
                  simp [handle_user_message, ADD_WEIGHT, ADD_CARE, ADD_VACCINE,
                    hb1, hb2, h0', hg]] at heq
                cases Option.some.inj heq
                rfl
              · by_cases hev : st = ADD_EVENT
                · subst hev
                  rw [show handle_user_message s ⟨some ADD_EVENT, some pidv⟩ now txt =
                      some ⟨UserData.empty,
                        updatePet s (pet.id : Int)
                          (fun p => { p with events := p.events ++ [(now, pyStrip txt)] }),
                        "Событие сохранено для " ++ pet.name⟩ from by
                    simp [handle_user_message, ADD_WEIGHT, ADD_CARE, ADD_VACCINE, ADD_EVENT,
                      hb1, hb2, h0', hg]] at heq
                  cases Option.some.inj heq
                  rfl
                · rw [show handle_user_message s ⟨some st, some pidv⟩ now txt =
                      some ⟨UserData.empty, s, "Неизвестная операция"⟩ from by
                    simp [handle_user_message, hb1, hb2, h0', hg, hw, hc, hvc, hev]] at heq
                  cases Option.some.inj heq
                  rfl
  · intro data action pid hsw hnm hps hact
    simp only [List.mem_cons, List.not_mem_nil, or_false, not_or] at hnm
    obtain ⟨e1, e2, e3, e4, e5, e6, e7, e8⟩ := hnm
    subst hact
    cases hg : get_pet s pid with
    | none => simp [handle_callback, e1, e2, e3, e4, e5, e6, e7, e8, hsw, hps, hg]
    | some pet => simp [handle_callback, e1, e2, e3, e4, e5, e6, e7, e8, hsw, hps, hg]

/-- **C6, witness**: on the example store, main-menu resets the pending
add-weight state while list-pets keeps it; completing an add-pet-name, an
add-care append, and an `INFO` selection all clear the state. -/
theorem c6_witness :
    (handle_callback sEx ⟨some ADD_WEIGHT, some 1⟩ MAIN_MENU).ud = UserData.empty ∧
    (handle_callback sEx ⟨some ADD_WEIGHT, some 1⟩ LIST_PETS).ud = ⟨some ADD_WEIGHT, some 1⟩ ∧
    pyStrip "Bob" ≠ "" ∧
    handle_user_message sEx ⟨some "ADD_PET_NAME", some 1⟩ 7 "Bob" =
      some ⟨UserData.empty, ⟨[rex, ⟨2, "Bob", 7, [], [], [], []⟩], 3⟩, "Питомец Bob добавлен."⟩ ∧
    (MsgResult.mk UserData.empty ⟨[rex, ⟨2, "Bob", 7, [], [], [], []⟩], 3⟩
      "Питомец Bob добавлен.").ud = UserData.empty ∧
    handle_user_message sEx ⟨some ADD_CARE, some 1⟩ 8 "flea" =
      some ⟨UserData.empty, ⟨[⟨1, "Rex", 0, [], [(8, "flea")], [], []⟩], 2⟩,
        "Обработка сохранена для Rex"⟩ ∧
    (MsgResult.mk UserData.empty ⟨[⟨1, "Rex", 0, [], [(8, "flea")], [], []⟩], 2⟩
      "Обработка сохранена для Rex").ud = UserData.empty ∧
    (handle_callback sEx ⟨some ADD_WEIGHT, some 1⟩ "SELECT|INFO|7").ud = UserData.empty := by
  have h7 := c6_state_reset sEx ⟨some ADD_WEIGHT, some 1⟩ 7 "Bob"
  have h8 := c6_state_reset sEx ⟨some ADD_WEIGHT, some 1⟩ 8 "flea"
  refine ⟨h7.1, h7.2.2.2.2.2.2.2.1, by decide, by decide, ?_, by decide, ?_, ?_⟩
  · exact h7.2.2.2.2.2.2.2.2.1 _ (by decide) (by decide)
  · exact h8.2.2.2.2.2.2.2.2.2.1 ADD_CARE (some 1) _ (by decide) (by decide) (by decide)
      (by decide)
  · exact h7.2.2.2.2.2.2.2.2.2.2 "SELECT|INFO|7" "INFO" 7 (by decide) (by decide)
      (by decide) rfl

/-- **C7, confirmed.** The rendered summary is the header line followed by
exactly four sections (weight, treatments, vaccines, events), joined by blank
lines; an empty section renders as the `пока пусто` ("pending") placeholder;
a non-empty section renders one `<timestamp>: <formatted value>` line per
entry (the displayed list is a permutation of the stored entries) in
non-decreasing timestamp order; and every weight value carries the ` кг`
unit suffix (visible in the line shape of `weightLines`). -/
theorem c7_summary_four_sections (pet : Pet) :
    render_pet_summary pet = String.intercalate "\n\n"
      ["Питомец: " ++ pet.name, weightSection pet, treatSection pet,
       vaccineSection pet, eventSection pet] ∧
    (pet.weights = [] → weightSection pet = "Вес: пока пусто") ∧
    (pet.weights ≠ [] →
      weightSection pet = "Вес:\n" ++ String.intercalate "\n" (weightLines pet)) ∧
    weightLines pet =
      (sortByTs pet.weights).map (fun e => entryLine e.1 (fmtVal e.2 ++ " кг")) ∧
    List.Perm (sortByTs pet.weights) pet.weights ∧
    List.Pairwise (fun a b => a.1 ≤ b.1) (sortByTs pet.weights) ∧
    (pet.treatments = [] → treatSection pet = "Обработки: пока пусто") ∧
    (pet.treatments ≠ [] →
      treatSection pet = "Обработки:\n" ++ String.intercalate "\n" (treatLines pet)) ∧
    List.Perm (sortByTs pet.treatments) pet.treatments ∧
    List.Pairwise (fun a b => a.1 ≤ b.1) (sortByTs pet.treatments) ∧
    (pet.vaccines = [] → vaccineSection pet = "Вакцины: пока пусто") ∧
    (pet.vaccines ≠ [] →
      vaccineSection pet = "Вакцины:\n" ++ String.intercalate "\n" (vaccineLines pet)) ∧
    List.Perm (sortByTs pet.vaccines) pet.vaccines ∧
    List.Pairwise (fun a b => a.1 ≤ b.1) (sortByTs pet.vaccines) ∧
    (pet.events = [] → eventSection pet = "События: пока пусто") ∧
    (pet.events ≠ [] →
      eventSection pet = "События:\n" ++ String.intercalate "\n" (eventLines pet)) ∧
    List.Perm (sortByTs pet.events) pet.events ∧
    List.Pairwise (fun a b => a.1 ≤ b.1) (sortByTs pet.events) := by
  refine ⟨rfl, ?_, fun h => weightSection_of_ne_nil pet h, rfl,
    sortByTs_perm _, sortByTs_pairwise _,
    ?_, fun h => treatSection_of_ne_nil pet h, sortByTs_perm _, sortByTs_pairwise _,
    ?_, fun h => vaccineSection_of_ne_nil pet h, sortByTs_perm _, sortByTs_pairwise _,
    ?_, fun h => eventSection_of_ne_nil pet h, sortByTs_perm _, sortByTs_pairwise _⟩
  · intro h; simp [weightSection, h, sortByTs, List.insertionSort, format_entries]
  · intro h; simp [treatSection, h, sortByTs, List.insertionSort, format_entries]
  · intro h; simp [vaccineSection, h, sortByTs, List.insertionSort, format_entries]
  · intro h; simp [eventSection, h, sortByTs, List.insertionSort, format_entries]

/-- Example pet with out-of-order weights, no treatments, one vaccine and one
event, used to witness the rendering claims. -/
def petW : Pet :=
  ⟨1, "Rex", 0, [(5, .finite 53 10), (3, .finite 4 1)], [], [(2, "rabies")], [(9, "walk")]⟩

/-- **C7, witness** at a pet with a non-empty, initially unsorted weight list
and an empty treatments list. -/
theorem c7_witness :
    petW.weights ≠ [] ∧ petW.treatments = [] ∧
    render_pet_summary petW = String.intercalate "\n\n"
      ["Питомец: " ++ petW.name, weightSection petW, treatSection petW,
       vaccineSection petW, eventSection petW] ∧
    weightSection petW = "Вес:\n" ++ String.intercalate "\n" (weightLines petW) ∧
    treatSection petW = "Обработки: пока пусто" ∧
    List.Pairwise (fun a b => a.1 ≤ b.1) (sortByTs petW.weights) ∧
    List.Perm (sortByTs petW.weights) petW.weights := by
  have h := c7_summary_four_sections petW
  exact ⟨by decide, rfl, h.1, h.2.2.1 (by decide), h.2.2.2.2.2.2.1 rfl,
    h.2.2.2.2.2.1, h.2.2.2.2.1⟩

/-- **C9, counterexample.** The TLS flag is compared case-insensitively and
only when the value is non-empty: for the connection query `sslmode=Disable`
the value is present and differs from the literal `"disable"`, so the claim
requires the TLS option to be set, but the code lowercases it and produces no
TLS connection option. -/
theorem c9_counterexample :
    ((⟨"postgresql", [("sslmode", "Disable")]⟩ : DBUrl).query.find?
        (fun kv => kv.1 == "sslmode")).map Prod.snd = some "Disable" ∧
    ("Disable" : String) ≠ "disable" ∧
    (make_async_url ⟨"postgresql", [("sslmode", "Disable")]⟩).ssl = none :=
  ⟨by decide, by decide, by decide⟩

/-- **C9, amended.** For every connection URL whose driver name starts with
`postgres`, the rewritten URL's query contains neither `channel_binding` nor
`sslmode`, the driver becomes `postgresql+asyncpg`, and the TLS-required
connection option is set (to `true`) exactly when the deduplicated query
carries an `sslmode` with a non-empty value whose lowercase form is not
`disable`; otherwise no TLS option is emitted. -/
theorem c9_async_url_translation (u : DBUrl)
    (h : pyStartsWith u.drivername "postgres" = true) :
    (∀ kv ∈ (make_async_url u).url.query,
      kv.1 ≠ "channel_binding" ∧ kv.1 ≠ "sslmode") ∧
    (make_async_url u).url.drivername = "postgresql+asyncpg" ∧
    ((make_async_url u).ssl = some true ↔
      ∃ v, ((sanitize_db_url u).query.find? (fun kv => kv.1 == "sslmode")).map
          Prod.snd = some v ∧ v ≠ "" ∧ pyLower v ≠ "disable") ∧
    ((make_async_url u).ssl = some true ∨ (make_async_url u).ssl = none) := by
  refine ⟨?_, ?_, ?_, ?_⟩
  · intro kv hkv
    simp only [make_async_url, h, if_true, sanitize_db_url] at hkv
    rcases List.mem_filter.1 hkv with ⟨hkv2, hss⟩
    rcases List.mem_filter.1 hkv2 with ⟨_, hcb⟩
    exact ⟨by simpa using hcb, by simpa using hss⟩
  · simp [make_async_url, sanitize_db_url, h]
  · cases hss : (sanitize_db_url u).query.find? (fun kv => kv.1 == "sslmode") with
    | none => simp [make_async_url, h, hss]
    | some kv =>
      simp only [make_async_url, h, hss, Option.map_some]
      by_cases h1 : kv.2 = ""
      · simp [h1]
      · by_cases h2 : pyLower kv.2 = "disable"
        · simp [h1, h2]
        · simp [h1, h2]
  · cases hss : (sanitize_db_url u).query.find? (fun kv => kv.1 == "sslmode") with
    | none => exact Or.inr (by simp [make_async_url, h, hss])
    | some kv =>
      by_cases h1 : kv.2 = ""
      · exact Or.inr (by simp [make_async_url, h, hss, h1])
      · by_cases h2 : pyLower kv.2 = "disable"
        · exact Or.inr (by simp [make_async_url, h, hss, h1, h2])
        · exact Or.inl (by simp [make_async_url, h, hss, h1, h2])

/-- **C9, witness** at a postgres URL carrying both `channel_binding=require`
and `sslmode=require`: the driver is swapped and TLS is required. -/
theorem c9_witness :
    pyStartsWith
      (⟨"postgresql", [("channel_binding", "require"), ("sslmode", "require")]⟩ :
        DBUrl).drivername "postgres" = true ∧
    (make_async_url
      ⟨"postgresql", [("channel_binding", "require"), ("sslmode", "require")]⟩).url.drivername =
      "postgresql+asyncpg" ∧
    (make_async_url
      ⟨"postgresql", [("channel_binding", "require"), ("sslmode", "require")]⟩).ssl =
      some true :=
  ⟨by decide,
   (c9_async_url_translation _ (by decide)).2.1,
   (c9_async_url_translation _ (by decide)).2.2.1.mpr
     ⟨"require", by decide, by decide, by decide⟩⟩

end PetBot




